import Mathlib

/-!
# AppointmentForm: slot generation, booking filter and submission checks

A shallow embedding of `frontend/src/components/appointment/AppointmentForm.jsx`.

Modelling conventions.

* A JavaScript `Date` is a natural number: the milliseconds elapsed since local
  midnight of the day on which `new Date(formData.date)` falls.  Local wall-clock
  time is taken to advance uniformly (no daylight-saving jump in the window).
* The `HH:MM` strings `from` and `to` are carried as the two numbers that
  `split(':').map(Number)` yields.
* `while` loops are structural recursions on a fuel argument; the fuel handed to
  them by `generateTimeSlots` is shown to be more than the loops can use.
* Browser built-ins whose result depends on locale, time zone or the Unicode
  tables (`toLocaleDateString`, `trim`, `toLowerCase`) are fields of `Env`.
* `fetchAvailableSlots` is one atomic transition: the state it reads and the state it
  writes are the same, and the outcome of the request is an argument.
* The doctor record and the signed-in user are present, so `doctor.doctorID` and
  `user.patientID` are plain fields of the state.
-/

namespace AppointmentForm

/-! ## Dates -/

/-- Wall-clock time of day as produced by `split(':').map(Number)` on `HH:MM`. -/
structure HHMM where
  hour : Nat
  minute : Nat
deriving DecidableEq

/-- Model of `Date.prototype.getHours`. -/
def getHours (date : Nat) : Nat := date / 3600000 % 24

/-- Model of `Date.prototype.getMinutes`. -/
def getMinutes (date : Nat) : Nat := date / 60000 % 60

/-- Model of `date.setHours(h, m, 0, 0)`: the local day of `date` is kept, the time
of day is replaced; hours and minutes past their range roll over. -/
def setHours (date h m : Nat) : Nat :=
  date / 86400000 * 86400000 + h * 3600000 + m * 60000

/-- Model of `String.prototype.padStart(targetLength, padString)` for a
one-character pad string. -/
def padStart (s : String) (targetLength : Nat) (c : Char) : String :=
  String.mk (List.replicate (targetLength - s.length) c) ++ s

/-- Source lines 141-146. -/
def formatTime (date : Nat) : String :=
  let hours := if getHours date % 12 = 0 then 12 else getHours date % 12
  let minutes := padStart (toString (getMinutes date)) 2 '0'
  let period := if getHours date ≥ 12 then "PM" else "AM"
  padStart (toString hours) 2 '0' ++ ":" ++ minutes ++ " " ++ period

/-- The label pushed at source line 133. -/
def slotLabel (slotStart slotEnd : Nat) : String :=
  formatTime slotStart ++ " - " ++ formatTime slotEnd

/-! ## generateTimeSlots -/

/-- The cursor update `startTime.setHours(startTime.getHours() + 1, 0, 0, 0)` of
source lines 118 and 134. -/
def nextHour (startTime : Nat) : Nat :=
  setHours startTime (getHours startTime + 1) 0

/-- The loop of source lines 114-123; returns the final `startTime`. -/
def skipElapsed : Nat → Nat → Nat → Nat → Nat
  | 0, _, _, startTime => startTime
  | fuel + 1, currentTime, endTime, startTime =>
    if startTime < endTime then
      let slotEnd := startTime + 60 * 60000
      if currentTime ≥ slotEnd then
        skipElapsed fuel currentTime endTime (nextHour startTime)
      else
        startTime
    else
      startTime

/-- The loop of source lines 127-135; returns the labels pushed onto `slots`. -/
def emitSlots : Nat → Nat → Nat → List String
  | 0, _, _ => []
  | fuel + 1, endTime, startTime =>
    if startTime < endTime then
      let slotStart := startTime
      let slotEnd := startTime + 60 * 60000
      if slotEnd > endTime then
        []
      else
        slotLabel slotStart slotEnd :: emitSlots fuel endTime (nextHour startTime)
    else
      []

/-- The loop of source lines 127-135 again, recording for every label pushed the
pair `(slotStart, slotEnd)` it was built from. -/
def emitIntervals : Nat → Nat → Nat → List (Nat × Nat)
  | 0, _, _ => []
  | fuel + 1, endTime, startTime =>
    if startTime < endTime then
      let slotStart := startTime
      let slotEnd := startTime + 60 * 60000
      if slotEnd > endTime then
        []
      else
        (slotStart, slotEnd) :: emitIntervals fuel endTime (nextHour startTime)
    else
      []

/-- Number of loop iterations granted to each `while` loop over a window ending at
`endTime`: one per hour boundary up to the end, plus one. -/
def loopFuel (endTime : Nat) : Nat := endTime / 3600000 + 1

/-- `startTime` of source lines 104-105 (`selectedDate` lies in day 0). -/
def windowStart (fromTime : HHMM) : Nat := setHours 0 fromTime.hour fromTime.minute

/-- `endTime` of source lines 107-108. -/
def windowEnd (toTime : HHMM) : Nat := setHours 0 toTime.hour toTime.minute

/-- `startTime` when the second loop is entered (source lines 110-124). -/
def firstCursor (isToday : Bool) (currentTime : Nat) (fromTime toTime : HHMM) : Nat :=
  if isToday then
    skipElapsed (loopFuel (windowEnd toTime)) currentTime (windowEnd toTime) (windowStart fromTime)
  else
    windowStart fromTime

/-- Source lines 95-138.  `isToday` is the comparison of line 102 and `currentTime`
the clock reading of line 111. -/
def generateTimeSlots (isToday : Bool) (currentTime : Nat) (fromTime toTime : HHMM) :
    List String :=
  emitSlots (loopFuel (windowEnd toTime)) (windowEnd toTime)
    (firstCursor isToday currentTime fromTime toTime)

/-- The `(slotStart, slotEnd)` pairs behind the labels of `generateTimeSlots`. -/
def generateSlotIntervals (isToday : Bool) (currentTime : Nat) (fromTime toTime : HHMM) :
    List (Nat × Nat) :=
  emitIntervals (loopFuel (windowEnd toTime)) (windowEnd toTime)
    (firstCursor isToday currentTime fromTime toTime)

/-! ## Form state and collaborators -/

/-- Browser built-ins used by the component. -/
structure Env where
  /-- The call `new Date(d).toLocaleDateString('en-US', { weekday: 'long' })`. -/
  weekdayLong : String → String
  /-- The call `new Date(d).toLocaleDateString('en-US')`. -/
  localeDate : String → String
  /-- The method `String.prototype.trim`. -/
  trim : String → String
  /-- The method `String.prototype.toLowerCase`. -/
  toLowerCase : String → String

/-- One entry of `doctor.availability`. -/
structure AvailabilityWindow where
  day : String
  fromTime : HHMM
  toTime : HHMM
  status : String
deriving DecidableEq

/-- One element of the array returned by `getBookedAppointmentsByDoctor`; a missing
`timeSlot` is `none`. -/
structure BookedAppointment where
  date : String
  timeSlot : Option String
deriving DecidableEq

/-- The object handed to `createAppointment` (source lines 184-191). -/
structure AppointmentRequest where
  doctorID : String
  patientID : String
  date : String
  timeSlot : String
  status : String
  paymentStatus : String
deriving DecidableEq

/-- The `useState` cells of the component, with the identifiers read from the loaded
doctor and from the signed-in user. -/
structure FormState where
  date : String
  timeSlot : String
  availableSlots : List String
  bookedSlots : List (Option String)
  loading : Bool
  error : String
  doctorAvailability : List AvailabilityWindow
  doctorID : String
  patientID : String
deriving DecidableEq

/-- Source line 69: `val?.trim().toLowerCase()`. -/
def normalize (env : Env) (val : Option String) : Option String :=
  val.map (fun v => env.toLowerCase (env.trim v))

/-- The predicate of source lines 49-51 and 167-169. -/
def isAvailableOn (env : Env) (selectedDay : String) (a : AvailabilityWindow) : Bool :=
  env.toLowerCase a.day == env.toLowerCase selectedDay && a.status == "Available"

/-- The lookup of source lines 44-52. -/
def resolveAvailability (env : Env) (s : FormState) : Option AvailabilityWindow :=
  s.doctorAvailability.find? (isAvailableOn env (env.weekdayLong s.date))

/-- The array `booked` of source lines 67-76. -/
def bookedSlotsOn (env : Env) (date : String) (allAppointments : List BookedAppointment) :
    List (Option String) :=
  (allAppointments.filter (fun app => env.localeDate app.date == env.localeDate date)).map
    (fun app => normalize env app.timeSlot)

/-- The array `filteredSlots` of source lines 80-82. -/
def filterBooked (env : Env) (booked : List (Option String)) (slots : List String) :
    List String :=
  slots.filter (fun slot => !decide (normalize env (some slot) ∈ booked))

/-- Source lines 42-93, run to completion on the state `s`.  `fetched` is the result
of `getBookedAppointmentsByDoctor`, `none` when the request throws. -/
def fetchAvailableSlots (env : Env) (isToday : Bool) (currentTime : Nat)
    (fetched : Option (List BookedAppointment)) (s : FormState) : FormState :=
  let selectedDay := env.weekdayLong s.date
  match resolveAvailability env s with
  | none =>
    { s with availableSlots := [], error := "Doctor is not available on " ++ selectedDay }
  | some availability =>
    let slots := generateTimeSlots isToday currentTime availability.fromTime availability.toTime
    match fetched with
    | none => { s with error := "Failed to load available time slots." }
    | some allAppointments =>
      let booked := bookedSlotsOn env s.date allAppointments
      let filteredSlots := filterBooked env booked slots
      { s with bookedSlots := booked, availableSlots := filteredSlots, error := "" }

/-- The spec's wording of the exclusion: the label coincides, after trimming and
lower-casing, with the `timeSlot` of an appointment booked on the selected date. -/
def coincidesWithBooked (env : Env) (date : String) (allAppointments : List BookedAppointment)
    (label : String) : Prop :=
  ∃ app ∈ allAppointments, env.localeDate app.date = env.localeDate date ∧
    app.timeSlot.map (fun ts => env.toLowerCase (env.trim ts)) =
      some (env.toLowerCase (env.trim label))

instance (env : Env) (date : String) (allAppointments : List BookedAppointment)
    (label : String) : Decidable (coincidesWithBooked env date allAppointments label) := by
  unfold coincidesWithBooked
  infer_instance

/-- The spec's wording of the booking filter: the candidates, in order, without the
labels that coincide with a booked slot of the date. -/
def candidatesMinusBooked (env : Env) (date : String)
    (allAppointments : List BookedAppointment) (candidates : List String) : List String :=
  candidates.filter (fun label => decide (¬ coincidesWithBooked env date allAppointments label))

/-- The condition of source lines 49-51 and 167-169 as a proposition: same weekday
name up to letter case, and status exactly `Available`. -/
def MatchesDay (env : Env) (selectedDay : String) (a : AvailabilityWindow) : Prop :=
  env.toLowerCase a.day = env.toLowerCase selectedDay ∧ a.status = "Available"

instance (env : Env) (selectedDay : String) (a : AvailabilityWindow) :
    Decidable (MatchesDay env selectedDay a) := by
  unfold MatchesDay
  infer_instance

/-- What `handleSubmit` does before any network traffic: either it stops with an error
message, or it calls `createAppointment` with a request. -/
inductive SubmitOutcome where
  | error (message : String)
  | create (request : AppointmentRequest)
deriving DecidableEq

/-- Source lines 152-194. -/
def handleSubmit (env : Env) (s : FormState) : SubmitOutcome :=
  if s.date = "" ∨ s.timeSlot = "" then
    .error "Please select a valid date and time slot."
  else
    let selectedDay := env.weekdayLong s.date
    let isAvailable := s.doctorAvailability.any (isAvailableOn env selectedDay)
    if !isAvailable then
      .error ("Doctor is not available on " ++ selectedDay)
    else if some (env.toLowerCase (env.trim s.timeSlot)) ∈ s.bookedSlots then
      .error "Selected slot already booked. Choose another."
    else
      .create {
        doctorID := s.doctorID
        patientID := s.patientID
        date := s.date
        timeSlot := s.timeSlot
        status := "Booked"
        paymentStatus := "Unpaid" }

/-- The state left behind by `handleSubmit`; `created` tells whether the call to
`createAppointment`, when made, succeeds (source lines 193-203). -/
def submitState (env : Env) (created : Bool) (s : FormState) : FormState :=
  match handleSubmit env s with
  | .error message => { s with loading := false, error := message }
  | .create _ =>
    if created then { s with loading := false, error := "" }
    else { s with loading := false, error := "Could not create appointment. Please try again." }

/-- What can happen to the form. -/
inductive Event where
  /-- The date input changes (`handleChange`, source lines 148-150). -/
  | selectDate (value : String)
  /-- The effect of source lines 38-40 runs `fetchAvailableSlots`. -/
  | loadSlots (isToday : Bool) (currentTime : Nat) (fetched : Option (List BookedAppointment))
  /-- A slot chip is clicked (source lines 238-246). -/
  | pickSlot (slot : String)
  /-- The form is submitted. -/
  | submit (created : Bool)
deriving DecidableEq

/-- One event applied to the form state. -/
def step (env : Env) (s : FormState) : Event → FormState
  | .selectDate value => { s with date := value }
  | .loadSlots isToday currentTime fetched =>
    if s.date ≠ "" then fetchAvailableSlots env isToday currentTime fetched s else s
  | .pickSlot slot =>
    if s.date ≠ "" ∧ slot ∈ s.availableSlots then { s with timeSlot := slot } else s
  | .submit created => submitState env created s

/-- A sequence of events applied in order. -/
def run (env : Env) (s : FormState) (events : List Event) : FormState :=
  events.foldl (step env) s

/-- Events that leave both the selected date and the stored booked set alone. -/
def Event.keepsBooked : Event → Bool
  | .selectDate _ => false
  | .loadSlots _ _ (some _) => false
  | .loadSlots _ _ none => true
  | .pickSlot _ => true
  | .submit _ => true

/-- The state right after mounting with a loaded doctor (source lines 10-16). -/
def initialState (doctorAvailability : List AvailabilityWindow) (doctorID patientID : String) :
    FormState :=
  { date := "", timeSlot := "", availableSlots := [], bookedSlots := [], loading := false,
    error := "", doctorAvailability := doctorAvailability, doctorID := doctorID,
    patientID := patientID }

/-! ## A concrete environment for evaluation -/

/-- Lower-casing of the letters `A` to `Z`, which is what `toLowerCase` does on ASCII
text. -/
def asciiLower (s : String) : String := String.mk (s.data.map Char.toLower)

/-- Removal of leading and trailing blanks, tabs and line breaks, which is what `trim`
does on ASCII text. -/
def asciiTrim (s : String) : String :=
  String.mk ((s.data.dropWhile Char.isWhitespace).reverse.dropWhile Char.isWhitespace).reverse

/-- A browser in the UTC time zone, tabulated on the two dates used below
(13 May 2024 is a Monday). -/
def sampleEnv : Env where
  weekdayLong := fun d =>
    if d = "2024-05-13" then "Monday" else if d = "2024-05-14" then "Tuesday" else "Invalid Date"
  localeDate := fun d =>
    if d = "2024-05-13" then "5/13/2024" else if d = "2024-05-14" then "5/14/2024"
    else "Invalid Date"
  trim := asciiTrim
  toLowerCase := asciiLower

/-- A doctor who works Mondays and Tuesdays from 09:00 to 12:00. -/
def sampleAvailability : List AvailabilityWindow :=
  [{ day := "Monday", fromTime := ⟨9, 0⟩, toTime := ⟨12, 0⟩, status := "Available" },
   { day := "Tuesday", fromTime := ⟨9, 0⟩, toTime := ⟨12, 0⟩, status := "Available" }]

/-- The one appointment the booking service holds: Tuesday 14 May, 09:00 to 10:00. -/
def sampleAppointments : List BookedAppointment :=
  [{ date := "2024-05-14", timeSlot := some "09:00 AM - 10:00 AM" }]

/-- Monday is selected and loaded, the first slot is picked, then Tuesday is selected and
the request for the booked appointments fails. -/
def staleTrace : List Event :=
  [.selectDate "2024-05-13", .loadSlots false 0 (some sampleAppointments),
   .pickSlot "09:00 AM - 10:00 AM", .selectDate "2024-05-14", .loadSlots false 0 none]

/-- The form after `staleTrace`, starting from a freshly mounted form. -/
def staleState : FormState :=
  run sampleEnv (initialState sampleAvailability "d1" "p1") staleTrace

/-- Monday is selected and loaded, the first slot is picked, then Tuesday is selected. -/
def pickThenMoveTrace : List Event :=
  [.selectDate "2024-05-13", .loadSlots false 0 (some sampleAppointments),
   .pickSlot "09:00 AM - 10:00 AM", .selectDate "2024-05-14"]

/-! ## Loop lemmas -/

theorem nextHour_eq (t : Nat) : nextHour t = (t / 3600000 + 1) * 3600000 := by
  unfold nextHour setHours getHours
  omega

theorem nextHour_gt (t : Nat) : t < nextHour t := by
  rw [nextHour_eq]; omega

theorem nextHour_le (t : Nat) : nextHour t ≤ t + 3600000 := by
  rw [nextHour_eq]; omega

theorem nextHour_div (t : Nat) : nextHour t / 3600000 = t / 3600000 + 1 := by
  rw [nextHour_eq]; omega

theorem nextHour_aligned (t : Nat) (h : t % 3600000 = 0) : nextHour t = t + 3600000 := by
  rw [nextHour_eq]; omega

theorem emitIntervals_zero (endTime startTime : Nat) :
    emitIntervals 0 endTime startTime = [] := rfl

theorem emitIntervals_succ (fuel endTime startTime : Nat) :
    emitIntervals (fuel + 1) endTime startTime =
      if startTime < endTime ∧ startTime + 3600000 ≤ endTime then
        (startTime, startTime + 3600000) :: emitIntervals fuel endTime (nextHour startTime)
      else [] := by
  rw [emitIntervals]
  by_cases h1 : startTime < endTime <;> by_cases h2 : startTime + 3600000 ≤ endTime
  · have : ¬ (startTime + 60 * 60000 > endTime) := by omega
    simp [h1, h2, this]
  · have : startTime + 60 * 60000 > endTime := by omega
    simp [h1, h2, this]
  · simp [h1]
  · simp [h1]

theorem emitSlots_succ (fuel endTime startTime : Nat) :
    emitSlots (fuel + 1) endTime startTime =
      if startTime < endTime ∧ startTime + 3600000 ≤ endTime then
        slotLabel startTime (startTime + 3600000) :: emitSlots fuel endTime (nextHour startTime)
      else [] := by
  rw [emitSlots]
  by_cases h1 : startTime < endTime <;> by_cases h2 : startTime + 3600000 ≤ endTime
  · have : ¬ (startTime + 60 * 60000 > endTime) := by omega
    simp [h1, h2, this]
  · have : startTime + 60 * 60000 > endTime := by omega
    simp [h1, h2, this]
  · simp [h1]
  · simp [h1]

theorem skipElapsed_succ (fuel currentTime endTime startTime : Nat) :
    skipElapsed (fuel + 1) currentTime endTime startTime =
      if startTime < endTime ∧ startTime + 3600000 ≤ currentTime then
        skipElapsed fuel currentTime endTime (nextHour startTime)
      else startTime := by
  rw [skipElapsed]
  by_cases h1 : startTime < endTime <;> by_cases h2 : startTime + 3600000 ≤ currentTime
  · have : currentTime ≥ startTime + 60 * 60000 := by omega
    simp [h1, h2, this]
  · have : ¬ (currentTime ≥ startTime + 60 * 60000) := by omega
    simp [h1, h2, this]
  · simp [h1]
  · simp [h1]

theorem emitSlots_eq_map (fuel endTime startTime : Nat) :
    emitSlots fuel endTime startTime =
      (emitIntervals fuel endTime startTime).map (fun p => slotLabel p.1 p.2) := by
  induction fuel generalizing startTime with
  | zero => rfl
  | succ n ih =>
    rw [emitSlots_succ, emitIntervals_succ]
    split
    · simp [ih]
    · rfl

/-- One more unit of fuel changes nothing once the fuel covers the hour
boundaries left before `endTime`. -/
theorem emitIntervals_succ_fuel (fuel endTime startTime : Nat)
    (h : endTime / 3600000 < startTime / 3600000 + fuel) :
    emitIntervals (fuel + 1) endTime startTime = emitIntervals fuel endTime startTime := by
  induction fuel generalizing startTime with
  | zero =>
    have : ¬ (startTime < endTime ∧ startTime + 3600000 ≤ endTime) := by omega
    rw [emitIntervals_succ, if_neg this, emitIntervals_zero]
  | succ n ih =>
    rw [emitIntervals_succ (n + 1)]
    conv_rhs => rw [emitIntervals_succ n]
    split
    · rw [ih]
      rw [nextHour_div]; omega
    · rfl

theorem emitIntervals_add_fuel (fuel k endTime startTime : Nat)
    (h : endTime / 3600000 < startTime / 3600000 + fuel) :
    emitIntervals (fuel + k) endTime startTime = emitIntervals fuel endTime startTime := by
  induction k with
  | zero => rfl
  | succ k ih =>
    rw [← Nat.add_assoc, emitIntervals_succ_fuel _ _ _ (by omega), ih]

/-- The second loop never runs out of fuel: any two sufficient amounts of fuel give
the same list. -/
theorem emitIntervals_fuel_irrelevant (f g endTime startTime : Nat)
    (hf : endTime / 3600000 < startTime / 3600000 + f)
    (hg : endTime / 3600000 < startTime / 3600000 + g) :
    emitIntervals f endTime startTime = emitIntervals g endTime startTime := by
  rcases Nat.le_total f g with hfg | hfg
  · obtain ⟨k, rfl⟩ := Nat.exists_eq_add_of_le hfg
    exact (emitIntervals_add_fuel f k endTime startTime hf).symm
  · obtain ⟨k, rfl⟩ := Nat.exists_eq_add_of_le hfg
    exact emitIntervals_add_fuel g k endTime startTime hg

theorem skipElapsed_succ_fuel (fuel currentTime endTime startTime : Nat)
    (h : endTime / 3600000 < startTime / 3600000 + fuel) :
    skipElapsed (fuel + 1) currentTime endTime startTime =
      skipElapsed fuel currentTime endTime startTime := by
  induction fuel generalizing startTime with
  | zero =>
    have : ¬ (startTime < endTime ∧ startTime + 3600000 ≤ currentTime) := by omega
    rw [skipElapsed_succ, if_neg this]; rfl
  | succ n ih =>
    rw [skipElapsed_succ (n + 1)]
    conv_rhs => rw [skipElapsed_succ n]
    split
    · rw [ih]
      rw [nextHour_div]; omega
    · rfl

theorem skipElapsed_add_fuel (fuel k currentTime endTime startTime : Nat)
    (h : endTime / 3600000 < startTime / 3600000 + fuel) :
    skipElapsed (fuel + k) currentTime endTime startTime =
      skipElapsed fuel currentTime endTime startTime := by
  induction k with
  | zero => rfl
  | succ k ih =>
    rw [← Nat.add_assoc, skipElapsed_succ_fuel _ _ _ _ (by omega), ih]

/-- The first loop never runs out of fuel either. -/
theorem skipElapsed_fuel_irrelevant (f g currentTime endTime startTime : Nat)
    (hf : endTime / 3600000 < startTime / 3600000 + f)
    (hg : endTime / 3600000 < startTime / 3600000 + g) :
    skipElapsed f currentTime endTime startTime =
      skipElapsed g currentTime endTime startTime := by
  rcases Nat.le_total f g with hfg | hfg
  · obtain ⟨k, rfl⟩ := Nat.exists_eq_add_of_le hfg
    exact (skipElapsed_add_fuel f k currentTime endTime startTime hf).symm
  · obtain ⟨k, rfl⟩ := Nat.exists_eq_add_of_le hfg
    exact skipElapsed_add_fuel g k currentTime endTime startTime hg

theorem loopFuel_sufficient (endTime startTime : Nat) :
    endTime / 3600000 < startTime / 3600000 + loopFuel endTime := by
  unfold loopFuel; omega

/-- Every recorded pair starts at or after the cursor, lasts one hour and ends at or
before `endTime`. -/
theorem emitIntervals_mem (fuel endTime startTime : Nat) (p : Nat × Nat)
    (hp : p ∈ emitIntervals fuel endTime startTime) :
    startTime ≤ p.1 ∧ p.2 = p.1 + 3600000 ∧ p.2 ≤ endTime := by
  induction fuel generalizing startTime with
  | zero => simp [emitIntervals] at hp
  | succ n ih =>
    rw [emitIntervals_succ] at hp
    split at hp
    · rename_i hc
      rcases List.mem_cons.1 hp with rfl | hp
      · exact ⟨Nat.le_refl _, rfl, hc.2⟩
      · have := ih _ hp
        have := nextHour_gt startTime
        omega
    · simp at hp

/-- The cursor only moves forward in the first loop. -/
theorem skipElapsed_ge (fuel currentTime endTime startTime : Nat) :
    startTime ≤ skipElapsed fuel currentTime endTime startTime := by
  induction fuel generalizing startTime with
  | zero => simp [skipElapsed]
  | succ n ih =>
    rw [skipElapsed_succ]
    split
    · have := ih (nextHour startTime)
      have := nextHour_gt startTime
      omega
    · exact Nat.le_refl _

/-- With enough fuel the first loop stops either past the window or at a slot that the
clock has not yet left behind. -/
theorem skipElapsed_post (fuel currentTime endTime startTime : Nat)
    (h : endTime / 3600000 < startTime / 3600000 + fuel)
    (hlt : skipElapsed fuel currentTime endTime startTime < endTime) :
    currentTime < skipElapsed fuel currentTime endTime startTime + 3600000 := by
  induction fuel generalizing startTime with
  | zero =>
    simp only [skipElapsed] at hlt ⊢
    omega
  | succ n ih =>
    rw [skipElapsed_succ] at hlt ⊢
    split
    · rename_i h1
      rw [if_pos h1] at hlt
      apply ih _ _ hlt
      rw [nextHour_div]; omega
    · rename_i h1
      rw [if_neg h1] at hlt
      omega

/-- Entering the second loop one cursor step later only removes the head of the
list. -/
theorem emitIntervals_nextHour_suffix (fuel endTime startTime : Nat)
    (h : endTime / 3600000 < startTime / 3600000 + fuel) :
    emitIntervals fuel endTime (nextHour startTime) <:+ emitIntervals fuel endTime startTime := by
  cases fuel with
  | zero => simp [emitIntervals_zero]
  | succ n =>
    rw [emitIntervals_succ n endTime startTime]
    split
    · rw [emitIntervals_succ_fuel n endTime (nextHour startTime) (by rw [nextHour_div]; omega)]
      exact List.suffix_cons _ _
    · rename_i hc
      have hnil : emitIntervals (n + 1) endTime (nextHour startTime) = [] := by
        apply List.eq_nil_iff_forall_not_mem.2
        intro p hp
        have h1 := emitIntervals_mem _ _ _ p hp
        have h2 := nextHour_gt startTime
        omega
      rw [hnil]

/-- The list emitted from the cursor left by the first loop is a suffix of the list
emitted from the original cursor. -/
theorem emitIntervals_skipElapsed_suffix (f fuel currentTime endTime startTime : Nat)
    (h : endTime / 3600000 < startTime / 3600000 + fuel) :
    emitIntervals fuel endTime (skipElapsed f currentTime endTime startTime) <:+
      emitIntervals fuel endTime startTime := by
  induction f generalizing startTime with
  | zero => exact List.suffix_refl _
  | succ n ih =>
    rw [skipElapsed_succ]
    split
    · exact (ih (nextHour startTime) (by rw [nextHour_div]; omega)).trans
        (emitIntervals_nextHour_suffix fuel endTime startTime h)
    · exact List.suffix_refl _

/-- From a cursor on an hour boundary the second loop emits the consecutive hours
that fit before `endTime`. -/
theorem emitIntervals_aligned (fuel endTime startTime : Nat)
    (ht : startTime % 3600000 = 0)
    (h : endTime / 3600000 < startTime / 3600000 + fuel) :
    emitIntervals fuel endTime startTime =
      (List.range ((endTime - startTime) / 3600000)).map
        (fun i => (startTime + i * 3600000, startTime + (i + 1) * 3600000)) := by
  induction fuel generalizing startTime with
  | zero =>
    have : (endTime - startTime) / 3600000 = 0 := by omega
    rw [this]; rfl
  | succ n ih =>
    rw [emitIntervals_succ]
    split
    · rename_i hc
      have hq : (endTime - startTime) / 3600000 =
          (endTime - (startTime + 3600000)) / 3600000 + 1 := by omega
      rw [hq, List.range_succ_eq_map, nextHour_aligned _ ht,
        ih (startTime + 3600000) (by omega) (by omega)]
      rw [List.map_cons, List.map_map]
      refine congrArg₂ List.cons ?_ ?_
      · refine Prod.ext ?_ ?_
        · show startTime = startTime + 0 * 3600000
          omega
        · show startTime + 3600000 = startTime + (0 + 1) * 3600000
          omega
      · apply List.map_congr_left
        intro i _
        refine Prod.ext ?_ ?_
        · show startTime + 3600000 + i * 3600000 = startTime + (i + 1) * 3600000
          omega
        · show startTime + 3600000 + (i + 1) * 3600000 = startTime + (i + 1 + 1) * 3600000
          omega
    · rename_i hc
      have : (endTime - startTime) / 3600000 = 0 := by omega
      rw [this]; rfl

/-! ## formatTime -/

theorem padStart_two (n : Nat) (hn : n < 60) :
    padStart (toString n) 2 '0' = String.mk [Nat.digitChar (n / 10), Nat.digitChar (n % 10)] := by
  interval_cases n <;> rfl

theorem getHours_lt (t : Nat) : getHours t < 24 := by
  unfold getHours; omega

theorem getMinutes_lt (t : Nat) : getMinutes t < 60 := by
  unfold getMinutes; omega

/-- The eight characters of a formatted time. -/
theorem formatTime_chars (t : Nat) :
    formatTime t =
      String.mk [
        Nat.digitChar ((if getHours t % 12 = 0 then 12 else getHours t % 12) / 10),
        Nat.digitChar ((if getHours t % 12 = 0 then 12 else getHours t % 12) % 10),
        ':',
        Nat.digitChar (getMinutes t / 10),
        Nat.digitChar (getMinutes t % 10),
        ' ',
        if getHours t < 12 then 'A' else 'P',
        'M'] := by
  have hh : (if getHours t % 12 = 0 then 12 else getHours t % 12) < 60 := by
    split <;> omega
  unfold formatTime
  simp only [padStart_two _ hh, padStart_two _ (getMinutes_lt t)]
  by_cases h12 : getHours t < 12
  · have : ¬ getHours t ≥ 12 := by omega
    simp only [this, h12, if_true, if_false]
    rfl
  · have : getHours t ≥ 12 := by omega
    simp only [this, h12, if_true, if_false]
    rfl

/-! ## generateTimeSlots: general facts -/

theorem windowStart_eq (fromTime : HHMM) :
    windowStart fromTime = fromTime.hour * 3600000 + fromTime.minute * 60000 := by
  unfold windowStart setHours; omega

theorem windowEnd_eq (toTime : HHMM) :
    windowEnd toTime = toTime.hour * 3600000 + toTime.minute * 60000 := by
  unfold windowEnd setHours; omega

/-- The labels returned are the labels of the recorded pairs, in the same order. -/
theorem generateTimeSlots_eq_map (isToday : Bool) (currentTime : Nat) (fromTime toTime : HHMM) :
    generateTimeSlots isToday currentTime fromTime toTime =
      (generateSlotIntervals isToday currentTime fromTime toTime).map
        (fun p => slotLabel p.1 p.2) :=
  emitSlots_eq_map _ _ _

theorem windowStart_le_firstCursor (isToday : Bool) (currentTime : Nat) (fromTime toTime : HHMM) :
    windowStart fromTime ≤ firstCursor isToday currentTime fromTime toTime := by
  unfold firstCursor
  split
  · exact skipElapsed_ge _ _ _ _
  · exact Nat.le_refl _

/-- Granting the loops more iterations than `loopFuel` changes nothing. -/
theorem generateSlotIntervals_fuel (extra : Nat) (isToday : Bool) (currentTime : Nat)
    (fromTime toTime : HHMM) :
    emitIntervals (loopFuel (windowEnd toTime) + extra) (windowEnd toTime)
        (if isToday then
          skipElapsed (loopFuel (windowEnd toTime) + extra) currentTime (windowEnd toTime)
            (windowStart fromTime)
        else windowStart fromTime) =
      generateSlotIntervals isToday currentTime fromTime toTime := by
  unfold generateSlotIntervals firstCursor
  rw [emitIntervals_add_fuel _ _ _ _ (loopFuel_sufficient _ _),
    skipElapsed_add_fuel _ _ _ _ _ (loopFuel_sufficient _ _)]

/-- For a window that starts on the hour and a date other than today, the slots are
the consecutive hours from the window start that fit before the window end. -/
theorem generateSlotIntervals_on_the_hour (currentTime : Nat) (fromTime toTime : HHMM)
    (hmin : fromTime.minute = 0) :
    generateSlotIntervals false currentTime fromTime toTime =
      (List.range ((windowEnd toTime - windowStart fromTime) / 3600000)).map
        (fun i => (windowStart fromTime + i * 3600000,
          windowStart fromTime + (i + 1) * 3600000)) := by
  unfold generateSlotIntervals firstCursor
  simp only [Bool.false_eq_true, if_false]
  apply emitIntervals_aligned _ _ _ _ (loopFuel_sufficient _ _)
  rw [windowStart_eq, hmin]; omega

/-! ## Claims -/

/-- C1 (code defect): on the window 09:30-12:00 and a date other than today the code
returns three slots, 09:30-10:30, 10:00-11:00 and 11:00-12:00: the second starts half
an hour before the first ends, and there are three of them although the window holds
only two full hours. -/
theorem half_hour_start_gives_overlapping_slots :
    generateSlotIntervals false 0 ⟨9, 30⟩ ⟨12, 0⟩ =
        [(34200000, 37800000), (36000000, 39600000), (39600000, 43200000)] ∧
      generateTimeSlots false 0 ⟨9, 30⟩ ⟨12, 0⟩ =
        ["09:30 AM - 10:30 AM", "10:00 AM - 11:00 AM", "11:00 AM - 12:00 PM"] ∧
      (windowEnd ⟨12, 0⟩ - windowStart ⟨9, 30⟩) / 3600000 = 2 := by
  decide

/-- C2: when the target date is today, every slot returned ends strictly after the
current moment; the labels returned are exactly the labels of these slots. -/
theorem today_slots_end_after_now (currentTime : Nat) (fromTime toTime : HHMM) :
    generateTimeSlots true currentTime fromTime toTime =
        (generateSlotIntervals true currentTime fromTime toTime).map
          (fun p => slotLabel p.1 p.2) ∧
      ∀ p ∈ generateSlotIntervals true currentTime fromTime toTime, currentTime < p.2 := by
  refine ⟨generateTimeSlots_eq_map _ _ _ _, ?_⟩
  intro p hp
  unfold generateSlotIntervals at hp
  have hm := emitIntervals_mem _ _ _ p hp
  have hpost := skipElapsed_post (loopFuel (windowEnd toTime)) currentTime (windowEnd toTime)
    (windowStart fromTime) (loopFuel_sufficient _ _)
  simp only [firstCursor, if_true] at hm
  have := hpost (by omega)
  omega

theorem today_slots_end_after_now_witness :
    (37800000 : Nat) < ((36000000, 39600000) : Nat × Nat).2 :=
  (today_slots_end_after_now 37800000 ⟨9, 0⟩ ⟨12, 0⟩).2 (36000000, 39600000) (by decide)

/-- C5: every slot emitted starts at or after the window start, ends exactly one hour
after its start and ends at or before the window end, whatever the date and the clock;
a window shorter than one hour, in particular one with `from >= to`, yields no slot. -/
theorem slots_within_window (isToday : Bool) (currentTime : Nat) (fromTime toTime : HHMM) :
    windowStart fromTime = fromTime.hour * 3600000 + fromTime.minute * 60000 ∧
      windowEnd toTime = toTime.hour * 3600000 + toTime.minute * 60000 ∧
      generateTimeSlots isToday currentTime fromTime toTime =
        (generateSlotIntervals isToday currentTime fromTime toTime).map
          (fun p => slotLabel p.1 p.2) ∧
      (∀ p ∈ generateSlotIntervals isToday currentTime fromTime toTime,
        windowStart fromTime ≤ p.1 ∧ p.2 = p.1 + 3600000 ∧ p.2 ≤ windowEnd toTime) ∧
      (windowEnd toTime < windowStart fromTime + 3600000 →
        generateTimeSlots isToday currentTime fromTime toTime = []) ∧
      (windowEnd toTime ≤ windowStart fromTime →
        generateTimeSlots isToday currentTime fromTime toTime = []) := by
  have hmem : ∀ p ∈ generateSlotIntervals isToday currentTime fromTime toTime,
      windowStart fromTime ≤ p.1 ∧ p.2 = p.1 + 3600000 ∧ p.2 ≤ windowEnd toTime := by
    intro p hp
    have hm := emitIntervals_mem _ _ _ p hp
    have := windowStart_le_firstCursor isToday currentTime fromTime toTime
    omega
  have hshort : windowEnd toTime < windowStart fromTime + 3600000 →
      generateTimeSlots isToday currentTime fromTime toTime = [] := by
    intro hlt
    rw [generateTimeSlots_eq_map, List.map_eq_nil_iff]
    apply List.eq_nil_iff_forall_not_mem.2
    intro p hp
    have := hmem p hp
    omega
  exact ⟨windowStart_eq _, windowEnd_eq _, generateTimeSlots_eq_map _ _ _ _, hmem, hshort,
    fun h => hshort (by omega)⟩

theorem slots_within_window_witness :
    generateTimeSlots true 0 ⟨9, 30⟩ ⟨10, 15⟩ = [] ∧ generateTimeSlots false 0 ⟨12, 0⟩ ⟨9, 0⟩ = [] :=
  ⟨(slots_within_window true 0 ⟨9, 30⟩ ⟨10, 15⟩).2.2.2.2.1 (by decide),
    (slots_within_window false 0 ⟨12, 0⟩ ⟨9, 0⟩).2.2.2.2.2 (by decide)⟩

/-- C6, as the spec states it, fails: at 10:30 today the window 09:00-12:00 does not
yield the one-element list. -/
theorem today_1030_not_single_slot :
    generateTimeSlots true (10 * 3600000 + 30 * 60000) ⟨9, 0⟩ ⟨12, 0⟩ ≠
      ["11:00 AM - 12:00 PM"] := by
  decide

/-- C6, amended: at 10:30 today the window 09:00-12:00 yields the two slots 10:00-11:00
and 11:00-12:00; only the 09:00-10:00 slot, which has ended, is skipped, and the slot in
progress is kept. -/
theorem today_1030_keeps_running_slot :
    generateTimeSlots true (10 * 3600000 + 30 * 60000) ⟨9, 0⟩ ⟨12, 0⟩ =
        ["10:00 AM - 11:00 AM", "11:00 AM - 12:00 PM"] ∧
      generateSlotIntervals true (10 * 3600000 + 30 * 60000) ⟨9, 0⟩ ⟨12, 0⟩ =
        [(10 * 3600000, 11 * 3600000), (11 * 3600000, 12 * 3600000)] ∧
      skipElapsed (loopFuel (windowEnd ⟨12, 0⟩)) (10 * 3600000 + 30 * 60000)
        (windowEnd ⟨12, 0⟩) (windowStart ⟨9, 0⟩) = 10 * 3600000 := by
  decide

/-- C7: every label is `formatTime start`, then ` - `, then `formatTime` of one hour
later, and the end keeps the minutes of the start; for a moment at 24-hour time
`(h, m)` of any day, `formatTime` writes `h` modulo 12 (with 0 shown as 12, so between
1 and 12) on two digits, a colon, `m` on two digits, a blank, and `AM` when `h` is
below 12, `PM` otherwise; the first label of a date other than today starts at the
`(h, m)` of `from`; the window 09:00-12:00 on a date other than today gives the three
labels of the spec, and the window 13:45-15:00 gives labels with minutes 45 and 00. -/
theorem labels_are_formatted (isToday : Bool) (currentTime : Nat) (fromTime toTime : HHMM) :
    generateTimeSlots isToday currentTime fromTime toTime =
        (generateSlotIntervals isToday currentTime fromTime toTime).map
          (fun p => formatTime p.1 ++ " - " ++ formatTime (p.1 + 3600000)) ∧
      (∀ t : Nat,
        1 ≤ (if getHours t % 12 = 0 then 12 else getHours t % 12) ∧
        (if getHours t % 12 = 0 then 12 else getHours t % 12) ≤ 12 ∧
        getMinutes t < 60 ∧
        formatTime t =
          String.mk [
            Nat.digitChar ((if getHours t % 12 = 0 then 12 else getHours t % 12) / 10),
            Nat.digitChar ((if getHours t % 12 = 0 then 12 else getHours t % 12) % 10),
            ':',
            Nat.digitChar (getMinutes t / 10),
            Nat.digitChar (getMinutes t % 10),
            ' ',
            if getHours t < 12 then 'A' else 'P',
            'M']) ∧
      generateTimeSlots false currentTime ⟨9, 0⟩ ⟨12, 0⟩ =
        ["09:00 AM - 10:00 AM", "10:00 AM - 11:00 AM", "11:00 AM - 12:00 PM"] ∧
      (∀ day h m ms : Nat, h < 24 → m < 60 → ms < 60000 →
        getHours (day * 86400000 + h * 3600000 + m * 60000 + ms) = h ∧
        getMinutes (day * 86400000 + h * 3600000 + m * 60000 + ms) = m ∧
        formatTime (day * 86400000 + h * 3600000 + m * 60000 + ms) =
          String.mk [
            Nat.digitChar ((if h % 12 = 0 then 12 else h % 12) / 10),
            Nat.digitChar ((if h % 12 = 0 then 12 else h % 12) % 10),
            ':',
            Nat.digitChar (m / 10),
            Nat.digitChar (m % 10),
            ' ',
            if h < 12 then 'A' else 'P',
            'M']) ∧
      (∀ t : Nat,
        getMinutes (t + 3600000) = getMinutes t ∧
        getHours (t + 3600000) = (getHours t + 1) % 24) ∧
      (fromTime.hour < 24 → fromTime.minute < 60 →
        (generateSlotIntervals false currentTime fromTime toTime).head? ≠ none →
        (generateSlotIntervals false currentTime fromTime toTime).head? =
            some (windowStart fromTime, windowStart fromTime + 3600000) ∧
          getHours (windowStart fromTime) = fromTime.hour ∧
          getMinutes (windowStart fromTime) = fromTime.minute) ∧
      generateTimeSlots false currentTime ⟨13, 45⟩ ⟨15, 0⟩ =
        ["01:45 PM - 02:45 PM", "02:00 PM - 03:00 PM"] ∧
      formatTime (0 * 3600000 + 5 * 60000) = "12:05 AM" ∧
      formatTime (12 * 3600000 + 30 * 60000) = "12:30 PM" ∧
      formatTime (23 * 3600000 + 59 * 60000) = "11:59 PM" := by
  refine ⟨?_, ?_, ?_, ?_, ?_, ?_, ?_, ?_, ?_, ?_⟩
  · rw [generateTimeSlots_eq_map]
    apply List.map_congr_left
    intro p hp
    have hm := emitIntervals_mem _ _ _ p hp
    simp only [slotLabel, hm.2.1]
  · intro t
    refine ⟨?_, ?_, getMinutes_lt t, formatTime_chars t⟩
    · split <;> omega
    · split <;> omega
  · show emitSlots (loopFuel (windowEnd ⟨12, 0⟩)) (windowEnd ⟨12, 0⟩) (windowStart ⟨9, 0⟩) = _
    decide
  · intro day h m ms hh hm hms
    have e1 : getHours (day * 86400000 + h * 3600000 + m * 60000 + ms) = h := by
      unfold getHours; omega
    have e2 : getMinutes (day * 86400000 + h * 3600000 + m * 60000 + ms) = m := by
      unfold getMinutes; omega
    refine ⟨e1, e2, ?_⟩
    rw [formatTime_chars, e1, e2]
  · intro t
    constructor
    · unfold getMinutes; omega
    · unfold getHours; omega
  · intro hh hm hne
    have e1 : getHours (windowStart fromTime) = fromTime.hour := by
      rw [windowStart_eq]; unfold getHours; omega
    have e2 : getMinutes (windowStart fromTime) = fromTime.minute := by
      rw [windowStart_eq]; unfold getMinutes; omega
    refine ⟨?_, e1, e2⟩
    unfold generateSlotIntervals firstCursor loopFuel at hne ⊢
    simp only [Bool.false_eq_true, if_false] at hne ⊢
    rw [emitIntervals_succ] at hne ⊢
    split
    · rfl
    · rename_i hc
      rw [if_neg hc] at hne
      exact absurd rfl hne
  · show emitSlots (loopFuel (windowEnd ⟨15, 0⟩)) (windowEnd ⟨15, 0⟩) (windowStart ⟨13, 45⟩) = _
    decide
  · decide
  · decide
  · decide

theorem labels_are_formatted_witness :
    formatTime (0 * 86400000 + 13 * 3600000 + 45 * 60000 + 0) = "01:45 PM" ∧
      (generateSlotIntervals false 0 ⟨13, 45⟩ ⟨15, 0⟩).head? =
        some (windowStart ⟨13, 45⟩, windowStart ⟨13, 45⟩ + 3600000) ∧
      getMinutes (windowStart ⟨13, 45⟩) = 45 :=
  ⟨((labels_are_formatted false 0 ⟨13, 45⟩ ⟨15, 0⟩).2.2.2.1 0 13 45 0
      (by decide) (by decide) (by decide)).2.2.trans (by decide),
    ((labels_are_formatted false 0 ⟨13, 45⟩ ⟨15, 0⟩).2.2.2.2.2.1
      (by decide) (by decide) (by decide)).1,
    ((labels_are_formatted false 0 ⟨13, 45⟩ ⟨15, 0⟩).2.2.2.2.2.1
      (by decide) (by decide) (by decide)).2.2⟩

/-- C10: for one window, the list returned for today is a suffix of the list returned
for another date, whatever the clock and whatever the minutes of `from`. -/
theorem today_list_is_suffix (currentTime otherTime : Nat) (fromTime toTime : HHMM) :
    generateSlotIntervals true currentTime fromTime toTime <:+
        generateSlotIntervals false otherTime fromTime toTime ∧
      generateTimeSlots true currentTime fromTime toTime <:+
        generateTimeSlots false otherTime fromTime toTime := by
  have h : generateSlotIntervals true currentTime fromTime toTime <:+
      generateSlotIntervals false otherTime fromTime toTime := by
    unfold generateSlotIntervals firstCursor
    simp only [Bool.false_eq_true, if_true, if_false]
    exact emitIntervals_skipElapsed_suffix _ _ _ _ _ (loopFuel_sufficient _ _)
  refine ⟨h, ?_⟩
  rw [generateTimeSlots_eq_map, generateTimeSlots_eq_map]
  exact h.map _

/-! ## Booking filter, availability lookup and submission -/

theorem isAvailableOn_iff (env : Env) (selectedDay : String) (a : AvailabilityWindow) :
    isAvailableOn env selectedDay a = true ↔ MatchesDay env selectedDay a := by
  simp [isAvailableOn, MatchesDay]

theorem mem_bookedSlotsOn_iff (env : Env) (date : String)
    (allAppointments : List BookedAppointment) (label : String) :
    normalize env (some label) ∈ bookedSlotsOn env date allAppointments ↔
      coincidesWithBooked env date allAppointments label := by
  simp only [bookedSlotsOn, normalize, coincidesWithBooked, List.mem_map, List.mem_filter,
    Option.map_some', beq_iff_eq]
  constructor
  · rintro ⟨app, ⟨hmem, hdate⟩, heq⟩
    exact ⟨app, hmem, hdate, heq⟩
  · rintro ⟨app, hmem, hdate, heq⟩
    exact ⟨app, ⟨hmem, hdate⟩, heq⟩

theorem fetchAvailableSlots_of_none (env : Env) (isToday : Bool) (currentTime : Nat)
    (fetched : Option (List BookedAppointment)) (s : FormState)
    (h : resolveAvailability env s = none) :
    fetchAvailableSlots env isToday currentTime fetched s =
      { s with availableSlots := [],
               error := "Doctor is not available on " ++ env.weekdayLong s.date } := by
  simp only [fetchAvailableSlots, h]

theorem fetchAvailableSlots_of_fetched (env : Env) (isToday : Bool) (currentTime : Nat)
    (allAppointments : List BookedAppointment) (s : FormState) (a : AvailabilityWindow)
    (h : resolveAvailability env s = some a) :
    fetchAvailableSlots env isToday currentTime (some allAppointments) s =
      { s with bookedSlots := bookedSlotsOn env s.date allAppointments,
               availableSlots := filterBooked env (bookedSlotsOn env s.date allAppointments)
                 (generateTimeSlots isToday currentTime a.fromTime a.toTime),
               error := "" } := by
  simp only [fetchAvailableSlots, h]

theorem fetchAvailableSlots_of_failed (env : Env) (isToday : Bool) (currentTime : Nat)
    (s : FormState) (a : AvailabilityWindow) (h : resolveAvailability env s = some a) :
    fetchAvailableSlots env isToday currentTime none s =
      { s with error := "Failed to load available time slots." } := by
  simp only [fetchAvailableSlots, h]

/-- C3: the offered list is the candidate list, in its order, without the labels whose
trimmed and lower-cased form equals the trimmed and lower-cased `timeSlot` of an
appointment booked on the selected date, and nothing else is removed; so no offered
label coincides with a booked slot of that date.  `fetchAvailableSlots` stores exactly
this list, computed from the generated slots. -/
theorem offered_is_candidates_minus_booked (env : Env) (date : String)
    (allAppointments : List BookedAppointment) (candidates : List String) :
    filterBooked env (bookedSlotsOn env date allAppointments) candidates =
        candidatesMinusBooked env date allAppointments candidates ∧
      (filterBooked env (bookedSlotsOn env date allAppointments) candidates).Sublist
        candidates ∧
      (∀ label, label ∈ filterBooked env (bookedSlotsOn env date allAppointments) candidates ↔
        label ∈ candidates ∧ ¬ coincidesWithBooked env date allAppointments label) ∧
      (∀ (s : FormState) (isToday : Bool) (currentTime : Nat) (a : AvailabilityWindow),
        resolveAvailability env s = some a →
        (fetchAvailableSlots env isToday currentTime (some allAppointments) s).availableSlots =
          candidatesMinusBooked env s.date allAppointments
            (generateTimeSlots isToday currentTime a.fromTime a.toTime)) := by
  have heq : ∀ (d : String) (c : List String),
      filterBooked env (bookedSlotsOn env d allAppointments) c =
        candidatesMinusBooked env d allAppointments c := by
    intro d c
    unfold filterBooked candidatesMinusBooked
    apply List.filter_congr
    intro label _
    by_cases hc : coincidesWithBooked env d allAppointments label
    · have := (mem_bookedSlotsOn_iff env d allAppointments label).2 hc
      simp [hc, this]
    · have := mt (mem_bookedSlotsOn_iff env d allAppointments label).1 hc
      simp [hc, this]
  refine ⟨heq _ _, ?_, ?_, ?_⟩
  · exact List.filter_sublist _
  · intro label
    rw [heq]
    simp [candidatesMinusBooked, List.mem_filter]
  · intro s isToday currentTime a ha
    rw [fetchAvailableSlots_of_fetched env isToday currentTime allAppointments s a ha, heq]

theorem offered_is_candidates_minus_booked_witness :
    (fetchAvailableSlots sampleEnv false 0 (some sampleAppointments)
        { initialState sampleAvailability "d1" "p1" with date := "2024-05-14" }).availableSlots =
      candidatesMinusBooked sampleEnv "2024-05-14" sampleAppointments
        (generateTimeSlots false 0 ⟨9, 0⟩ ⟨12, 0⟩) :=
  (offered_is_candidates_minus_booked sampleEnv "2024-05-14" sampleAppointments []).2.2.2
    { initialState sampleAvailability "d1" "p1" with date := "2024-05-14" } false 0
    { day := "Tuesday", fromTime := ⟨9, 0⟩, toTime := ⟨12, 0⟩, status := "Available" }
    (by decide)

/-- C4: `handleSubmit` checks, in this order and stopping at the first failure, that
date and time slot are non-empty, that some availability entry matches the weekday of
the date with status `Available`, and that the trimmed, lower-cased time slot is not in
`bookedSlots`; `createAppointment` is called exactly when all three checks pass, with
status `Booked`, payment status `Unpaid` and the date and time slot of the form. -/
theorem handleSubmit_checks_in_order (env : Env) (s : FormState) :
    (s.date = "" ∨ s.timeSlot = "" →
        handleSubmit env s = .error "Please select a valid date and time slot.") ∧
      (s.date ≠ "" → s.timeSlot ≠ "" →
        (¬ ∃ a ∈ s.doctorAvailability, MatchesDay env (env.weekdayLong s.date) a) →
        handleSubmit env s =
          .error ("Doctor is not available on " ++ env.weekdayLong s.date)) ∧
      (s.date ≠ "" → s.timeSlot ≠ "" →
        (∃ a ∈ s.doctorAvailability, MatchesDay env (env.weekdayLong s.date) a) →
        some (env.toLowerCase (env.trim s.timeSlot)) ∈ s.bookedSlots →
        handleSubmit env s = .error "Selected slot already booked. Choose another.") ∧
      ((∃ request, handleSubmit env s = .create request) ↔
        (s.date ≠ "" ∧ s.timeSlot ≠ "") ∧
        (∃ a ∈ s.doctorAvailability, MatchesDay env (env.weekdayLong s.date) a) ∧
        some (env.toLowerCase (env.trim s.timeSlot)) ∉ s.bookedSlots) ∧
      (∀ request, handleSubmit env s = .create request →
        request = ⟨s.doctorID, s.patientID, s.date, s.timeSlot, "Booked", "Unpaid"⟩) := by
  have hany : s.doctorAvailability.any (isAvailableOn env (env.weekdayLong s.date)) = true ↔
      ∃ a ∈ s.doctorAvailability, MatchesDay env (env.weekdayLong s.date) a := by
    rw [List.any_eq_true]
    constructor
    · rintro ⟨a, ha, hm⟩
      exact ⟨a, ha, (isAvailableOn_iff _ _ _).1 hm⟩
    · rintro ⟨a, ha, hm⟩
      exact ⟨a, ha, (isAvailableOn_iff _ _ _).2 hm⟩
  by_cases h1 : s.date = "" ∨ s.timeSlot = ""
  · have hs : handleSubmit env s = .error "Please select a valid date and time slot." := by
      simp only [handleSubmit, h1, if_true]
    refine ⟨fun _ => hs, ?_, ?_, ?_, ?_⟩
    · intro hd ht; rcases h1 with h | h
      · exact absurd h hd
      · exact absurd h ht
    · intro hd ht; rcases h1 with h | h
      · exact absurd h hd
      · exact absurd h ht
    · rw [hs]
      constructor
      · rintro ⟨r, hr⟩; cases hr
      · rintro ⟨⟨hd, ht⟩, _⟩; rcases h1 with h | h
        · exact absurd h hd
        · exact absurd h ht
    · intro r hr; rw [hs] at hr; cases hr
  · have hne : s.date ≠ "" ∧ s.timeSlot ≠ "" := by
      constructor
      · intro h; exact h1 (Or.inl h)
      · intro h; exact h1 (Or.inr h)
    by_cases h2 : ∃ a ∈ s.doctorAvailability, MatchesDay env (env.weekdayLong s.date) a
    · have h2b := hany.2 h2
      by_cases h3 : some (env.toLowerCase (env.trim s.timeSlot)) ∈ s.bookedSlots
      · have hs : handleSubmit env s =
            .error "Selected slot already booked. Choose another." := by
          simp only [handleSubmit, h1, if_false, h2b, Bool.not_true, Bool.false_eq_true, h3,
            if_true]
        refine ⟨fun h => absurd h h1, fun _ _ h => absurd h2 h, fun _ _ _ _ => hs, ?_, ?_⟩
        · rw [hs]
          constructor
          · rintro ⟨r, hr⟩; cases hr
          · rintro ⟨_, _, h⟩; exact absurd h3 h
        · intro r hr; rw [hs] at hr; cases hr
      · have hs : handleSubmit env s =
            .create ⟨s.doctorID, s.patientID, s.date, s.timeSlot, "Booked", "Unpaid"⟩ := by
          simp only [handleSubmit, h1, if_false, h2b, Bool.not_true, Bool.false_eq_true, h3]
        refine ⟨fun h => absurd h h1, fun _ _ h => absurd h2 h, fun _ _ _ h => absurd h h3,
          ?_, ?_⟩
        · rw [hs]
          exact ⟨fun _ => ⟨hne, h2, h3⟩, fun _ => ⟨_, rfl⟩⟩
        · intro r hr; rw [hs] at hr
          exact (SubmitOutcome.create.inj hr).symm
    · have h2b : s.doctorAvailability.any (isAvailableOn env (env.weekdayLong s.date)) =
          false := by
        cases hb : s.doctorAvailability.any (isAvailableOn env (env.weekdayLong s.date))
        · rfl
        · exact absurd (hany.1 hb) h2
      have hs : handleSubmit env s =
          .error ("Doctor is not available on " ++ env.weekdayLong s.date) := by
        simp only [handleSubmit, h1, if_false, h2b, Bool.not_false, if_true]
      refine ⟨fun h => absurd h h1, fun _ _ _ => hs, fun _ _ h => absurd h h2, ?_, ?_⟩
      · rw [hs]
        constructor
        · rintro ⟨r, hr⟩; cases hr
        · rintro ⟨_, h, _⟩; exact absurd h h2
      · intro r hr; rw [hs] at hr; cases hr

theorem handleSubmit_checks_in_order_witness :
    handleSubmit sampleEnv { initialState sampleAvailability "d1" "p1" with date := "2024-05-14" } =
        .error "Please select a valid date and time slot." ∧
      handleSubmit sampleEnv
          { initialState [] "d1" "p1" with date := "2024-05-14", timeSlot := "09:00 AM - 10:00 AM" } =
        .error ("Doctor is not available on " ++ sampleEnv.weekdayLong "2024-05-14") ∧
      handleSubmit sampleEnv
          { initialState sampleAvailability "d1" "p1" with
            date := "2024-05-14", timeSlot := " 09:00 AM - 10:00 am ",
            bookedSlots := [some "09:00 am - 10:00 am"] } =
        .error "Selected slot already booked. Choose another." :=
  ⟨(handleSubmit_checks_in_order sampleEnv
      { initialState sampleAvailability "d1" "p1" with date := "2024-05-14" }).1 (by decide),
    (handleSubmit_checks_in_order sampleEnv
      { initialState [] "d1" "p1" with
        date := "2024-05-14", timeSlot := "09:00 AM - 10:00 AM" }).2.1
      (by decide) (by decide) (by decide),
    (handleSubmit_checks_in_order sampleEnv
      { initialState sampleAvailability "d1" "p1" with
        date := "2024-05-14", timeSlot := " 09:00 AM - 10:00 am ",
        bookedSlots := [some "09:00 am - 10:00 am"] }).2.2.1
      (by decide) (by decide)
      ⟨{ day := "Tuesday", fromTime := ⟨9, 0⟩, toTime := ⟨12, 0⟩, status := "Available" },
        by decide, by decide⟩
      (by decide)⟩

theorem resolveAvailability_eq_none_iff (env : Env) (s : FormState) :
    resolveAvailability env s = none ↔
      ∀ a ∈ s.doctorAvailability, ¬ MatchesDay env (env.weekdayLong s.date) a := by
  unfold resolveAvailability
  rw [List.find?_eq_none]
  constructor
  · intro h a ha hm
    exact h a ha ((isAvailableOn_iff _ _ _).2 hm)
  · intro h a ha hm
    exact h a ha ((isAvailableOn_iff _ _ _).1 hm)

theorem any_isAvailableOn_iff (env : Env) (selectedDay : String)
    (l : List AvailabilityWindow) :
    l.any (isAvailableOn env selectedDay) = true ↔ ∃ a ∈ l, MatchesDay env selectedDay a := by
  rw [List.any_eq_true]
  constructor
  · rintro ⟨a, ha, hm⟩
    exact ⟨a, ha, (isAvailableOn_iff _ _ _).1 hm⟩
  · rintro ⟨a, ha, hm⟩
    exact ⟨a, ha, (isAvailableOn_iff _ _ _).2 hm⟩

/-- A submission whose normalized time slot is in the stored booked set never reaches
`createAppointment`. -/
theorem handleSubmit_of_booked (env : Env) (t : FormState) (hdate : t.date ≠ "")
    (havail : ∃ a ∈ t.doctorAvailability, MatchesDay env (env.weekdayLong t.date) a)
    (hin : some (env.toLowerCase (env.trim t.timeSlot)) ∈ t.bookedSlots) :
    (∀ request, handleSubmit env t ≠ .create request) ∧
      (t.timeSlot ≠ "" →
        handleSubmit env t = .error "Selected slot already booked. Choose another.") := by
  have h2b := (any_isAvailableOn_iff env _ _).2 havail
  by_cases ht : t.timeSlot = ""
  · have hs : handleSubmit env t = .error "Please select a valid date and time slot." := by
      simp only [handleSubmit, ht, or_true, if_true]
    refine ⟨?_, fun h => absurd ht h⟩
    intro r hr; rw [hs] at hr; cases hr
  · have h1 : ¬ (t.date = "" ∨ t.timeSlot = "") := by
      rintro (h | h)
      · exact hdate h
      · exact ht h
    have hs : handleSubmit env t = .error "Selected slot already booked. Choose another." := by
      simp only [handleSubmit, h1, if_false, h2b, Bool.not_true, Bool.false_eq_true, hin,
        if_true]
    refine ⟨?_, fun _ => hs⟩
    intro r hr; rw [hs] at hr; cases hr

/-- C8: the lookup yields the first entry of the list whose day equals the weekday name
of the date up to letter case and whose status is exactly `Available`; it yields nothing
exactly when no entry satisfies both; in that case the offered list is emptied and the
error names the weekday, and otherwise the slots come from the window of that entry. -/
theorem availability_lookup_first_match (env : Env) (s : FormState) :
    (∀ a, resolveAvailability env s = some a ↔
        MatchesDay env (env.weekdayLong s.date) a ∧
        ∃ before after, s.doctorAvailability = before ++ a :: after ∧
          ∀ b ∈ before, ¬ MatchesDay env (env.weekdayLong s.date) b) ∧
      (resolveAvailability env s = none ↔
        ∀ a ∈ s.doctorAvailability, ¬ MatchesDay env (env.weekdayLong s.date) a) ∧
      (resolveAvailability env s = none →
        ∀ (isToday : Bool) (currentTime : Nat) (fetched : Option (List BookedAppointment)),
          (fetchAvailableSlots env isToday currentTime fetched s).availableSlots = [] ∧
          (fetchAvailableSlots env isToday currentTime fetched s).error =
            "Doctor is not available on " ++ env.weekdayLong s.date) ∧
      (∀ a, resolveAvailability env s = some a →
        ∀ (isToday : Bool) (currentTime : Nat) (allAppointments : List BookedAppointment),
          (fetchAvailableSlots env isToday currentTime (some allAppointments) s).availableSlots =
            filterBooked env (bookedSlotsOn env s.date allAppointments)
              (generateTimeSlots isToday currentTime a.fromTime a.toTime)) := by
  refine ⟨?_, ?_, ?_, ?_⟩
  · intro a
    unfold resolveAvailability
    rw [List.find?_eq_some, isAvailableOn_iff]
    constructor
    · rintro ⟨hm, before, after, hl, hb⟩
      refine ⟨hm, before, after, hl, ?_⟩
      intro b hmem hmb
      have := hb b hmem
      rw [(isAvailableOn_iff _ _ _).2 hmb] at this
      simp at this
    · rintro ⟨hm, before, after, hl, hb⟩
      refine ⟨hm, before, after, hl, ?_⟩
      intro b hmem
      cases hv : isAvailableOn env (env.weekdayLong s.date) b
      · rfl
      · exact absurd ((isAvailableOn_iff _ _ _).1 hv) (hb b hmem)
  · exact resolveAvailability_eq_none_iff env s
  · intro h isToday currentTime fetched
    rw [fetchAvailableSlots_of_none env isToday currentTime fetched s h]
    exact ⟨rfl, rfl⟩
  · intro a h isToday currentTime allAppointments
    rw [fetchAvailableSlots_of_fetched env isToday currentTime allAppointments s a h]

theorem availability_lookup_first_match_witness :
    (fetchAvailableSlots sampleEnv false 0 (some sampleAppointments)
        { initialState [⟨"tuesday", ⟨9, 0⟩, ⟨12, 0⟩, "Unavailable"⟩] "d1" "p1" with
          date := "2024-05-14", availableSlots := ["09:00 AM - 10:00 AM"] }).availableSlots = [] ∧
      (fetchAvailableSlots sampleEnv false 0 (some sampleAppointments)
        { initialState [⟨"tuesday", ⟨9, 0⟩, ⟨12, 0⟩, "Unavailable"⟩] "d1" "p1" with
          date := "2024-05-14", availableSlots := ["09:00 AM - 10:00 AM"] }).error =
        "Doctor is not available on " ++ sampleEnv.weekdayLong "2024-05-14" :=
  (availability_lookup_first_match sampleEnv
    { initialState [⟨"tuesday", ⟨9, 0⟩, ⟨12, 0⟩, "Unavailable"⟩] "d1" "p1" with
      date := "2024-05-14", availableSlots := ["09:00 AM - 10:00 AM"] }).2.2.1
    (by decide) false 0 (some sampleAppointments)

/-! ## Reachable states -/

theorem step_keepsBooked (env : Env) (s : FormState) (e : Event) (h : e.keepsBooked = true) :
    (step env s e).date = s.date ∧ (step env s e).bookedSlots = s.bookedSlots ∧
      (step env s e).doctorAvailability = s.doctorAvailability := by
  cases e with
  | selectDate v => simp [Event.keepsBooked] at h
  | loadSlots isToday currentTime fetched =>
    cases fetched with
    | some apps => simp [Event.keepsBooked] at h
    | none =>
      simp only [step]
      split
      · cases hr : resolveAvailability env s with
        | none => rw [fetchAvailableSlots_of_none _ _ _ _ _ hr]; exact ⟨rfl, rfl, rfl⟩
        | some a => rw [fetchAvailableSlots_of_failed _ _ _ _ a hr]; exact ⟨rfl, rfl, rfl⟩
      · exact ⟨rfl, rfl, rfl⟩
  | pickSlot slot =>
    simp only [step]
    split
    · exact ⟨rfl, rfl, rfl⟩
    · exact ⟨rfl, rfl, rfl⟩
  | submit created =>
    simp only [step, submitState]
    split
    · exact ⟨rfl, rfl, rfl⟩
    · split
      · exact ⟨rfl, rfl, rfl⟩
      · exact ⟨rfl, rfl, rfl⟩

theorem run_keepsBooked (env : Env) (s : FormState) (events : List Event)
    (h : ∀ e ∈ events, e.keepsBooked = true) :
    (run env s events).date = s.date ∧ (run env s events).bookedSlots = s.bookedSlots ∧
      (run env s events).doctorAvailability = s.doctorAvailability := by
  induction events generalizing s with
  | nil => exact ⟨rfl, rfl, rfl⟩
  | cons e rest ih =>
    have h1 := step_keepsBooked env s e (h e (List.mem_cons_self _ _))
    have h2 := ih (step env s e) (fun e' he' => h e' (List.mem_cons_of_mem _ he'))
    simp only [run, List.foldl_cons] at h2 ⊢
    exact ⟨h2.1.trans h1.1, h2.2.1.trans h1.2.1, h2.2.2.trans h1.2.2⟩

/-- C9, as the spec states it, fails: after `staleTrace` the selected date is Tuesday
14 May, the doctor works on Tuesdays and the picked slot is booked on that date, yet the
stored booked set is the empty one left by the load for Monday, and `handleSubmit`
calls `createAppointment`.  The same happens when the form is submitted right after the
date selection, before any load for Tuesday has run. -/
theorem stale_booked_set_admits_booked_slot :
    staleState.date = "2024-05-14" ∧
      staleState.timeSlot = "09:00 AM - 10:00 AM" ∧
      (∃ a ∈ staleState.doctorAvailability,
        MatchesDay sampleEnv (sampleEnv.weekdayLong staleState.date) a) ∧
      some (sampleEnv.toLowerCase (sampleEnv.trim staleState.timeSlot)) ∈
        bookedSlotsOn sampleEnv staleState.date sampleAppointments ∧
      staleState.bookedSlots ≠ bookedSlotsOn sampleEnv staleState.date sampleAppointments ∧
      handleSubmit sampleEnv staleState =
        .create ⟨"d1", "p1", "2024-05-14", "09:00 AM - 10:00 AM", "Booked", "Unpaid"⟩ ∧
      handleSubmit sampleEnv
          (run sampleEnv (initialState sampleAvailability "d1" "p1") pickThenMoveTrace) =
        .create ⟨"d1", "p1", "2024-05-14", "09:00 AM - 10:00 AM", "Booked", "Unpaid"⟩ := by
  decide

/-- C9, amended: once a slot-list load for the selected date has found an availability
entry and fetched the appointments, and as long as no date selection and no further
successful load follows (slot picks, submissions and failed loads may), the booked set
that `handleSubmit` consults is the normalized booked set of the selected date in the
fetched appointments; submitting a non-empty time slot whose normalized form is in that
set fails with the already-booked message, and no `createAppointment` call is made. -/
theorem fresh_booked_set_blocks_booked_slot (env : Env) (s : FormState) (isToday : Bool)
    (currentTime : Nat) (allAppointments : List BookedAppointment) (later : List Event)
    (hdate : s.date ≠ "")
    (havail : ∃ a ∈ s.doctorAvailability, MatchesDay env (env.weekdayLong s.date) a)
    (hlater : ∀ e ∈ later, e.keepsBooked = true) :
    (run env (step env s (.loadSlots isToday currentTime (some allAppointments))) later).date =
        s.date ∧
      (run env (step env s (.loadSlots isToday currentTime (some allAppointments)))
          later).bookedSlots = bookedSlotsOn env s.date allAppointments ∧
      (some (env.toLowerCase (env.trim
            (run env (step env s (.loadSlots isToday currentTime (some allAppointments)))
              later).timeSlot)) ∈ bookedSlotsOn env s.date allAppointments →
        (∀ request,
          handleSubmit env
            (run env (step env s (.loadSlots isToday currentTime (some allAppointments)))
              later) ≠ .create request) ∧
        ((run env (step env s (.loadSlots isToday currentTime (some allAppointments)))
            later).timeSlot ≠ "" →
          handleSubmit env
            (run env (step env s (.loadSlots isToday currentTime (some allAppointments)))
              later) = .error "Selected slot already booked. Choose another.")) := by
  obtain ⟨a0, ha0, hm0⟩ := havail
  have hsome : ∃ a, resolveAvailability env s = some a := by
    cases hr : resolveAvailability env s with
    | some a => exact ⟨a, rfl⟩
    | none => exact absurd hm0 ((resolveAvailability_eq_none_iff env s).1 hr a0 ha0)
  obtain ⟨a, ha⟩ := hsome
  have hstep : step env s (.loadSlots isToday currentTime (some allAppointments)) =
      fetchAvailableSlots env isToday currentTime (some allAppointments) s := by
    simp only [step, hdate, ne_eq, not_false_eq_true, if_true]
  have hk := run_keepsBooked env
    (step env s (.loadSlots isToday currentTime (some allAppointments))) later hlater
  generalize run env (step env s (.loadSlots isToday currentTime (some allAppointments)))
    later = t at hk ⊢
  rw [hstep, fetchAvailableSlots_of_fetched env isToday currentTime allAppointments s a ha]
    at hk
  obtain ⟨hd, hb, hav⟩ := hk
  simp only at hd hb hav
  refine ⟨hd, hb, ?_⟩
  intro hin
  apply handleSubmit_of_booked env t
  · rw [hd]; exact hdate
  · rw [hd, hav]; exact ⟨a0, ha0, hm0⟩
  · rw [hb]; exact hin

theorem fresh_booked_set_blocks_booked_slot_witness :
    handleSubmit sampleEnv
        (run sampleEnv
          (step sampleEnv
            (run sampleEnv (initialState sampleAvailability "d1" "p1") pickThenMoveTrace)
            (.loadSlots false 0 (some sampleAppointments)))
          [.submit false]) =
      .error "Selected slot already booked. Choose another." :=
  ((fresh_booked_set_blocks_booked_slot sampleEnv
      (run sampleEnv (initialState sampleAvailability "d1" "p1") pickThenMoveTrace)
      false 0 sampleAppointments [.submit false]
      (by decide) (by decide) (by decide)).2.2 (by decide)).2 (by decide)

end AppointmentForm
